import Mathlib

/-!
# Verification of the gpu-curtains scene-stack scheduler and binding/pipeline cache

This file shallowly embeds the parts of the gpu-curtains source that the
specification's claims are about, and proves or refutes each claim against
that embedding.

Modelling conventions:
* JavaScript `Array.prototype.sort(comparator)` (stable, per ES2019) with a
  consistent numeric comparator `c` is modelled by `List.insertionSort r`
  with `r a b := c a b ≤ 0`; Mathlib's insertion sort is stable (ties keep
  their original relative order), matching the ECMAScript requirement.
* `Array.prototype.splice(i, 0, x)` is modelled by `spliceInsert`.
* Object fields that only matter through their truthiness (GPU handles,
  DOM strings, ...) are modelled by `Bool` / `Option`.
-/

/-- A renderable mesh as the `Scene` class sees it: its stable uuid, the
module-level creation index, the explicit render order, the transparency and
projection flags of its material, the index of its material's pipeline entry
and the document position z component used for the transparent sort
(`src/core/scenes/Scene.js`, `src/core/meshes` mixin). -/
structure Mesh where
  uuid : Nat
  index : Nat
  renderOrder : Int
  transparent : Bool
  useProjection : Bool
  pipelineIndex : Nat
  documentPositionZ : Int
deriving DecidableEq, Repr

/-- A ping-pong plane as stored in `Scene.stacks.unprojected.pingPongPlanes`. -/
structure PingPongPlane where
  uuid : Nat
  renderOrder : Int
deriving DecidableEq, Repr

/-- A full-screen composite (shader) pass as stored in
`Scene.stacks.unprojected.shaderPasses`. -/
structure ShaderPass where
  uuid : Nat
  renderOrder : Int
deriving DecidableEq, Repr

/-- The scene stacks, exactly the shape built by `Scene.setStacks`:
`{ unprojected: { opaque, transparent, pingPongPlanes, shaderPasses },
   projected: { opaque, transparent } }`. -/
structure Stacks where
  unprojectedOpaque : List Mesh
  unprojectedTransparent : List Mesh
  pingPongPlanes : List PingPongPlane
  shaderPasses : List ShaderPass
  projectedOpaque : List Mesh
  projectedTransparent : List Mesh
deriving DecidableEq, Repr

/-- `Scene.setStacks`: all six partitions start empty. -/
def Scene.setStacks : Stacks :=
  { unprojectedOpaque := []
    unprojectedTransparent := []
    pingPongPlanes := []
    shaderPasses := []
    projectedOpaque := []
    projectedTransparent := [] }

/-- `Array.prototype.splice(i, 0, x)`: insert `x` at position `i`
(appending when `i` is past the end). -/
def spliceInsert (i : Nat) (x : α) : List α → List α
  | [] => [x]
  | y :: ys =>
    match i with
    | 0 => x :: y :: ys
    | i + 1 => y :: spliceInsert i x ys

/-- The backwards scan of `Scene.addMesh` (`for (let i = similarMeshes.length - 1; i >= 0; i--)`
with `break` at the first hit, producing `i + 1`), followed by
`Math.max(0, siblingMeshIndex)`: the splice position is one past the last
member whose material has the same pipeline entry index, or `0` when there is
none. -/
def siblingMeshIndex (similarMeshes : List Mesh) (mesh : Mesh) : Nat :=
  match similarMeshes.reverse.findIdx? (fun m => m.pipelineIndex == mesh.pipelineIndex) with
  | some j => similarMeshes.length - j
  | none => 0

/-- Comparator `(a, b) => a.index - b.index`: ascending creation index. -/
def meshIndexLe (a b : Mesh) : Prop := a.index ≤ b.index

/-- Comparator `(a, b) => b.documentPosition.z - a.documentPosition.z`:
descending document position z. -/
def meshZDescLe (a b : Mesh) : Prop := b.documentPositionZ ≤ a.documentPositionZ

/-- Comparator `(a, b) => b.renderOrder - a.renderOrder`: descending
explicit render order. -/
def meshRenderOrderDescLe (a b : Mesh) : Prop := b.renderOrder ≤ a.renderOrder

instance : DecidableRel meshIndexLe := fun a b => inferInstanceAs (Decidable (a.index ≤ b.index))

instance : DecidableRel meshZDescLe :=
  fun a b => inferInstanceAs (Decidable (b.documentPositionZ ≤ a.documentPositionZ))

instance : DecidableRel meshRenderOrderDescLe :=
  fun a b => inferInstanceAs (Decidable (b.renderOrder ≤ a.renderOrder))

instance : IsTotal Mesh meshZDescLe := ⟨fun a b => le_total b.documentPositionZ a.documentPositionZ⟩

instance : IsTrans Mesh meshZDescLe :=
  ⟨fun _ _ _ h h₂ => le_trans h₂ h⟩

instance : IsTotal Mesh meshRenderOrderDescLe := ⟨fun a b => le_total b.renderOrder a.renderOrder⟩

instance : IsTrans Mesh meshRenderOrderDescLe :=
  ⟨fun _ _ _ h h₂ => le_trans h₂ h⟩

/-- `similarMeshes.sort((a, b) => a.index - b.index)`. -/
def sortByIndex (l : List Mesh) : List Mesh := l.insertionSort meshIndexLe

/-- `similarMeshes.sort((a, b) => b.documentPosition.z - a.documentPosition.z)`. -/
def sortByZDesc (l : List Mesh) : List Mesh := l.insertionSort meshZDescLe

/-- `similarMeshes.sort((a, b) => b.renderOrder - a.renderOrder)`. -/
def sortByRenderOrderDesc (l : List Mesh) : List Mesh := l.insertionSort meshRenderOrderDescLe

/-- `Scene.addMesh(mesh)`. `rendererMeshes` stands for `this.renderer.meshes`
at the time of the call. Mirrors the source line by line: filter the
renderer's meshes by equal transparency and different uuid, find the splice
position after the last mesh sharing the pipeline entry index, splice the
mesh in, sort by creation index, sort transparent stacks by descending
document z, sort by descending render order, and write the resulting array
into the projected or unprojected opaque/transparent partition selected by
the mesh's own flags. -/
def Scene.addMesh (rendererMeshes : List Mesh) (mesh : Mesh) (sceneStacks : Stacks) : Stacks :=
  let similarMeshes :=
    rendererMeshes.filter (fun m => m.transparent == mesh.transparent && m.uuid != mesh.uuid)
  let arr := spliceInsert (siblingMeshIndex similarMeshes mesh) mesh similarMeshes
  let arr := sortByIndex arr
  let arr := if mesh.transparent then sortByZDesc arr else arr
  let arr := sortByRenderOrderDesc arr
  if mesh.useProjection then
    if mesh.transparent then { sceneStacks with projectedTransparent := arr }
    else { sceneStacks with projectedOpaque := arr }
  else
    if mesh.transparent then { sceneStacks with unprojectedTransparent := arr }
    else { sceneStacks with unprojectedOpaque := arr }

/-- `Scene.addShaderPass(shaderPass)`: push, then sort by descending render
order (`(a, b) => b.renderOrder - a.renderOrder`). -/
def Scene.addShaderPass (shaderPass : ShaderPass) (sceneStacks : Stacks) : Stacks :=
  { sceneStacks with
    shaderPasses :=
      (sceneStacks.shaderPasses ++ [shaderPass]).insertionSort
        (fun a b => b.renderOrder ≤ a.renderOrder) }

/-- `Scene.addPingPongPlane(pingPongPlane)`: push, then sort by descending
render order. -/
def Scene.addPingPongPlane (pingPongPlane : PingPongPlane) (sceneStacks : Stacks) : Stacks :=
  { sceneStacks with
    pingPongPlanes :=
      (sceneStacks.pingPongPlanes ++ [pingPongPlane]).insertionSort
        (fun a b => b.renderOrder ≤ a.renderOrder) }

/-- The opaque partition of the projection stack selected by `proj`,
as `Scene.addMesh` selects it through
`mesh.material.options.rendering.useProjection`. -/
def opaqueStack (s : Stacks) (proj : Bool) : List Mesh :=
  if proj then s.projectedOpaque else s.unprojectedOpaque

/-- The transparent partition of the projection stack selected by `proj`. -/
def transparentStack (s : Stacks) (proj : Bool) : List Mesh :=
  if proj then s.projectedTransparent else s.unprojectedTransparent

/-! ## Per-frame traversal (`Scene.render`)

`Scene.render(commandEncoder)` is straight-line imperative code; we embed it
as a pure function from the scene stacks to the ordered list of effects it
performs on the command encoder and the scene objects.  The `for ... in`
loops over `this.stacks` follow JavaScript object-key insertion order:
`unprojected` (`opaque`, `transparent`, `pingPongPlanes`, `shaderPasses`)
then `projected` (`opaque`, `transparent`). -/

/-- One observable effect of `Scene.render`. -/
inductive RenderEvent where
  /-- `element.onBeforeRenderPass()` on the element with this uuid. -/
  | beforeRenderPass (uuid : Nat)
  /-- `this.renderer.setRenderPassCurrentTexture(...)`: acquiring the frame's
  primary output (swap chain) texture. -/
  | setCurrentTexture
  /-- `commandEncoder.beginRenderPass(...)`. -/
  | beginRenderPass
  /-- `pass.end()`. -/
  | endRenderPass
  /-- `element.render(pass)` on the element with this uuid. -/
  | draw (uuid : Nat)
  /-- `commandEncoder.copyTextureToTexture` from the swap chain texture into
  the private render texture of the element with this uuid. -/
  | copyTextureToTexture (destUuid : Nat)
  /-- `pass.setBindGroup` for the renderer's camera bind group. -/
  | setCameraBindGroup
deriving DecidableEq, Repr

/-- `forEach((element) => element.onBeforeRenderPass())` over a mesh list,
appending to the already-performed effects. -/
def pushMeshHooks (acc : List RenderEvent) (l : List Mesh) : List RenderEvent :=
  l.foldl (fun a m => a ++ [RenderEvent.beforeRenderPass m.uuid]) acc

/-- Hook loop over the ping-pong plane list. -/
def pushPingPongHooks (acc : List RenderEvent) (l : List PingPongPlane) : List RenderEvent :=
  l.foldl (fun a p => a ++ [RenderEvent.beforeRenderPass p.uuid]) acc

/-- Hook loop over the shader pass list. -/
def pushShaderPassHooks (acc : List RenderEvent) (l : List ShaderPass) : List RenderEvent :=
  l.foldl (fun a sp => a ++ [RenderEvent.beforeRenderPass sp.uuid]) acc

/-- `Scene.render(commandEncoder)` as the ordered list of effects it
performs, accumulated in program order exactly as in the source:
the nested hook loops, the swap chain texture acquisition, one pass plus one
texture copy per ping-pong plane, the single main pass (unprojected opaque,
unprojected transparent, camera bind group if the renderer has one,
projected opaque, projected transparent), and one copy plus one pass per
shader pass.  `hasCameraBindGroup` stands for the truthiness of
`this.renderer.cameraBindGroup`. -/
def Scene.render (hasCameraBindGroup : Bool) (s : Stacks) : List RenderEvent :=
  let acc : List RenderEvent := []
  let acc := pushMeshHooks acc s.unprojectedOpaque
  let acc := pushMeshHooks acc s.unprojectedTransparent
  let acc := pushPingPongHooks acc s.pingPongPlanes
  let acc := pushShaderPassHooks acc s.shaderPasses
  let acc := pushMeshHooks acc s.projectedOpaque
  let acc := pushMeshHooks acc s.projectedTransparent
  let acc := acc ++ [RenderEvent.setCurrentTexture]
  let acc := s.pingPongPlanes.foldl
    (fun a p =>
      a ++ [RenderEvent.beginRenderPass, RenderEvent.draw p.uuid, RenderEvent.endRenderPass,
        RenderEvent.copyTextureToTexture p.uuid])
    acc
  let acc := acc ++ [RenderEvent.beginRenderPass]
  let acc := s.unprojectedOpaque.foldl (fun a m => a ++ [RenderEvent.draw m.uuid]) acc
  let acc := s.unprojectedTransparent.foldl (fun a m => a ++ [RenderEvent.draw m.uuid]) acc
  let acc := if hasCameraBindGroup then acc ++ [RenderEvent.setCameraBindGroup] else acc
  let acc := s.projectedOpaque.foldl (fun a m => a ++ [RenderEvent.draw m.uuid]) acc
  let acc := s.projectedTransparent.foldl (fun a m => a ++ [RenderEvent.draw m.uuid]) acc
  let acc := acc ++ [RenderEvent.endRenderPass]
  s.shaderPasses.foldl
    (fun a sp =>
      a ++ [RenderEvent.copyTextureToTexture sp.uuid, RenderEvent.beginRenderPass,
        RenderEvent.draw sp.uuid, RenderEvent.endRenderPass])
    acc

/-! ### The claimed traversal, stated declaratively

Each section below follows one sentence of the claimed per-frame ordering;
the amended traversal theorem compares their concatenation with the
imperative accumulation of `Scene.render`. -/

/-- Claimed step 1: every member of every stack partition has its
refresh-bindings hook invoked, before any pass begins. -/
def refreshHooksSection (s : Stacks) : List RenderEvent :=
  s.unprojectedOpaque.map (fun m => RenderEvent.beforeRenderPass m.uuid) ++
  s.unprojectedTransparent.map (fun m => RenderEvent.beforeRenderPass m.uuid) ++
  s.pingPongPlanes.map (fun p => RenderEvent.beforeRenderPass p.uuid) ++
  s.shaderPasses.map (fun sp => RenderEvent.beforeRenderPass sp.uuid) ++
  s.projectedOpaque.map (fun m => RenderEvent.beforeRenderPass m.uuid) ++
  s.projectedTransparent.map (fun m => RenderEvent.beforeRenderPass m.uuid)

/-- Claimed step 2: each ping-pong plane is drawn in its own pass and the
primary output texture is copied into that plane's private texture. -/
def pingPongSection (s : Stacks) : List RenderEvent :=
  (s.pingPongPlanes.map (fun p =>
    [RenderEvent.beginRenderPass, RenderEvent.draw p.uuid, RenderEvent.endRenderPass,
      RenderEvent.copyTextureToTexture p.uuid])).flatten

/-- Claimed step 3: a single pass draws unprojected opaque, unprojected
transparent, projected opaque and projected transparent meshes in that
order (with the camera bind group bound once before the projected draws
when the renderer has one). -/
def mainPassSection (hasCameraBindGroup : Bool) (s : Stacks) : List RenderEvent :=
  [RenderEvent.beginRenderPass] ++
  s.unprojectedOpaque.map (fun m => RenderEvent.draw m.uuid) ++
  s.unprojectedTransparent.map (fun m => RenderEvent.draw m.uuid) ++
  (if hasCameraBindGroup then [RenderEvent.setCameraBindGroup] else []) ++
  s.projectedOpaque.map (fun m => RenderEvent.draw m.uuid) ++
  s.projectedTransparent.map (fun m => RenderEvent.draw m.uuid) ++
  [RenderEvent.endRenderPass]

/-- Claimed step 4: for each full-screen composite pass, in the order of the
shader pass stack, the primary output is copied into its input texture, a
new pass is opened, the pass is drawn and closed. -/
def compositeSection (s : Stacks) : List RenderEvent :=
  (s.shaderPasses.map (fun sp =>
    [RenderEvent.copyTextureToTexture sp.uuid, RenderEvent.beginRenderPass,
      RenderEvent.draw sp.uuid, RenderEvent.endRenderPass])).flatten

/-- The claimed frame traversal: refresh hooks for every member of every
partition, then the primary texture acquisition, then the ping-pong passes,
then the single 3D pass, then the composite passes. -/
def claimedTraversal (hasCameraBindGroup : Bool) (s : Stacks) : List RenderEvent :=
  refreshHooksSection s ++ [RenderEvent.setCurrentTexture] ++ pingPongSection s ++
    mainPassSection hasCameraBindGroup s ++ compositeSection s

/-- Accumulating `forEach` loops are concatenations: folding `++ f x` over a
list appends the flattened image of the list. -/
theorem foldl_append_flatten (f : α → List β) (acc : List β) (l : List α) :
    l.foldl (fun a x => a ++ f x) acc = acc ++ (l.map f).flatten := by
  induction l generalizing acc with
  | nil => simp
  | cons x xs ih => simp [ih, List.append_assoc]

/-- Flattening singleton blocks is a plain map. -/
theorem flatten_map_singleton (f : α → β) (l : List α) :
    (l.map (fun x => [f x])).flatten = l.map f := by
  induction l with
  | nil => rfl
  | cons x xs ih => simp [ih]

/-- The imperative accumulation of `Scene.render` equals the declarative
section concatenation: shared between the traversal theorem and the
per-frame retry property. -/
theorem scene_render_eq_sections (hasCameraBindGroup : Bool) (s : Stacks) :
    Scene.render hasCameraBindGroup s = claimedTraversal hasCameraBindGroup s := by
  simp only [Scene.render, pushMeshHooks, pushPingPongHooks, pushShaderPassHooks,
    claimedTraversal, refreshHooksSection, pingPongSection, mainPassSection, compositeSection,
    foldl_append_flatten, flatten_map_singleton]
  cases hasCameraBindGroup <;> simp [List.append_assoc]

/-- A shader pass registered first, with the default render order `0`. -/
def firstRegisteredPass : ShaderPass := { uuid := 101, renderOrder := 0 }

/-- A shader pass registered second, with a higher render order `1`. -/
def secondRegisteredPass : ShaderPass := { uuid := 102, renderOrder := 1 }

/-- The scene stacks after registering `firstRegisteredPass` and then
`secondRegisteredPass` through `Scene.addShaderPass`. -/
def registrationStacks : Stacks :=
  Scene.addShaderPass secondRegisteredPass (Scene.addShaderPass firstRegisteredPass Scene.setStacks)

/-- C1, counterexample: composite (shader) passes do not execute in
registration order.  Registering a pass with render order `0` and then one
with render order `1` leaves the stack sorted by descending render order
(`[second, first]`), and the frame trace draws the second-registered pass
strictly before the first-registered one. -/
theorem scene_render_not_registration_order :
    registrationStacks.shaderPasses = [secondRegisteredPass, firstRegisteredPass] ∧
    (Scene.render false registrationStacks).indexOf
        (RenderEvent.draw secondRegisteredPass.uuid) <
      (Scene.render false registrationStacks).indexOf
        (RenderEvent.draw firstRegisteredPass.uuid) := by
  exact ⟨by decide, by decide⟩

/-- C1, amended: within one frame, `Scene.render` is strictly sequential in
this order: first every member of every stack partition has its
`onBeforeRenderPass` hook invoked, before any pass begins and regardless of
visibility; then each ping-pong plane is drawn in its own pass and the
primary output texture is copied into that plane's private texture; then a
single pass draws unprojected opaque, unprojected transparent, projected
opaque and projected transparent meshes in that order; finally, for each
full-screen composite (shader) pass in the order of the shader-pass stack
(descending render order, registration order among equal render orders), the
primary output is copied into its input texture, a new pass is opened, the
pass is drawn and closed — so composite passes execute strictly after all
3D content, in shader-pass stack order. -/
theorem scene_render_traversal_order (hasCameraBindGroup : Bool) (s : Stacks) :
    Scene.render hasCameraBindGroup s = claimedTraversal hasCameraBindGroup s :=
  scene_render_eq_sections hasCameraBindGroup s

/-! ## Render-order override (C2) -/

/-- Insertion sort on a two-element list keeps or swaps the pair. -/
theorem insertionSort_pair (r : α → α → Prop) [DecidableRel r] (x y : α) :
    List.insertionSort r [x, y] = if r x y then [x, y] else [y, x] := by
  simp [List.insertionSort, List.orderedInsert]

/-- Splicing a mesh next to a single sibling and re-sorting by creation
index yields the pair in one of its two arrangements. -/
theorem addMesh_pair_cases (x y : Mesh) :
    sortByIndex (spliceInsert (siblingMeshIndex [x] y) y [x]) = [x, y] ∨
    sortByIndex (spliceInsert (siblingMeshIndex [x] y) y [x]) = [y, x] := by
  have hsib : siblingMeshIndex [x] y = 1 ∨ siblingMeshIndex [x] y = 0 := by
    by_cases hp : (x.pipelineIndex == y.pipelineIndex) = true
    · left; simp [siblingMeshIndex, List.findIdx?, hp]
    · right; simp [siblingMeshIndex, List.findIdx?, hp]
  rcases hsib with h | h <;> rw [h]
  · by_cases hi : meshIndexLe x y
    · left; simp [spliceInsert, sortByIndex, insertionSort_pair, hi]
    · right; simp [spliceInsert, sortByIndex, insertionSort_pair, hi]
  · by_cases hi : meshIndexLe y x
    · right; simp [spliceInsert, sortByIndex, insertionSort_pair, hi]
    · left; simp [spliceInsert, sortByIndex, insertionSort_pair, hi]

/-- An opaque unprojected mesh with explicit render order `0`. -/
def orderZeroMesh : Mesh :=
  { uuid := 1, index := 0, renderOrder := 0, transparent := false, useProjection := false,
    pipelineIndex := 0, documentPositionZ := 0 }

/-- An opaque unprojected mesh with explicit render order `10`. -/
def orderTenMesh : Mesh :=
  { uuid := 2, index := 1, renderOrder := 10, transparent := false, useProjection := false,
    pipelineIndex := 0, documentPositionZ := 0 }

/-- C2, counterexample: inserting two opaque drawables with render orders
`0` and `10` leaves the render-order-`10` drawable FIRST in the partition,
not last: the final sort `(a, b) => b.renderOrder - a.renderOrder` is
descending, so the higher render order is drawn earlier. -/
theorem render_order_ten_not_last :
    (Scene.addMesh [orderZeroMesh, orderTenMesh] orderTenMesh
        (Scene.addMesh [orderZeroMesh] orderZeroMesh Scene.setStacks)).unprojectedOpaque
      = [orderTenMesh, orderZeroMesh] ∧
    ((Scene.addMesh [orderZeroMesh, orderTenMesh] orderTenMesh
        (Scene.addMesh [orderZeroMesh] orderZeroMesh Scene.setStacks)).unprojectedOpaque).getLast?
      = some orderZeroMesh ∧
    orderTenMesh.renderOrder = 10 ∧ orderZeroMesh.renderOrder = 0 :=
  ⟨by decide, by decide, rfl, rfl⟩

/-- C2, amended: for every scene stack partition, two opaque drawables with
explicit render orders `0` and `10`, inserted in either order, always end
with the render-order-`10` drawable FIRST in the partition: the final
re-sort by render order is descending, so a higher render order draws
earlier, overriding prior ordering. -/
theorem render_order_high_first (a b : Mesh) (s : Stacks)
    (ha : a.renderOrder = 0) (hb : b.renderOrder = 10)
    (hta : a.transparent = false) (htb : b.transparent = false)
    (huv : a.uuid ≠ b.uuid) :
    opaqueStack (Scene.addMesh [a, b] b s) b.useProjection = [b, a] ∧
    opaqueStack (Scene.addMesh [a, b] a s) a.useProjection = [b, a] := by
  have hne : (a.uuid == b.uuid) = false := beq_eq_false_iff_ne.mpr huv
  have hne2 : (b.uuid == a.uuid) = false := beq_eq_false_iff_ne.mpr (Ne.symm huv)
  have hsort : ∀ l : List Mesh, l = [a, b] ∨ l = [b, a] → sortByRenderOrderDesc l = [b, a] := by
    rintro l (rfl | rfl) <;>
      simp [sortByRenderOrderDesc, insertionSort_pair, meshRenderOrderDescLe, ha, hb]
  have hfb : [a, b].filter (fun m => m.transparent == b.transparent && m.uuid != b.uuid) = [a] := by
    simp [List.filter, hta, htb, bne, hne]
  have hfa : [a, b].filter (fun m => m.transparent == a.transparent && m.uuid != a.uuid) = [b] := by
    simp [List.filter, hta, htb, bne, hne2]
  constructor
  · have h1 := addMesh_pair_cases a b
    unfold Scene.addMesh
    rw [hfb]
    cases hproj : b.useProjection <;>
      simp [opaqueStack, htb, hsort _ h1]
  · have h2 := (addMesh_pair_cases b a).symm
    unfold Scene.addMesh
    rw [hfa]
    cases hproj : a.useProjection <;>
      simp [opaqueStack, hta, hsort _ h2]

/-- C2, witness: the amended render-order statement holds at the concrete
meshes of the counterexample scenario. -/
theorem render_order_high_first_witness :
    opaqueStack (Scene.addMesh [orderZeroMesh, orderTenMesh] orderTenMesh Scene.setStacks)
        orderTenMesh.useProjection = [orderTenMesh, orderZeroMesh] ∧
    opaqueStack (Scene.addMesh [orderZeroMesh, orderTenMesh] orderZeroMesh Scene.setStacks)
        orderZeroMesh.useProjection = [orderTenMesh, orderZeroMesh] :=
  render_order_high_first orderZeroMesh orderTenMesh Scene.setStacks rfl rfl rfl rfl (by decide)

/-! ## Insertion algorithm scope (C3) -/

/-- The splice position described in words by the spec: one past the last
member sharing the inserted mesh's pipeline entry identity (`0` when there
is none), computed by a forward scan that remembers the most recent match. -/
def posAfterLastSibling (mesh : Mesh) : List Mesh → Nat → Nat → Nat
  | [], _, acc => acc
  | m :: rest, i, acc =>
      posAfterLastSibling mesh rest (i + 1)
        (if m.pipelineIndex == mesh.pipelineIndex then i + 1 else acc)

/-- The forward last-match scan agrees with the backwards `findIdx?` scan of
the source, for every start offset and accumulator. -/
theorem posAfterLastSibling_eq (mesh : Mesh) (l : List Mesh) :
    ∀ (i acc : Nat),
      posAfterLastSibling mesh l i acc =
        match l.reverse.findIdx? (fun m => m.pipelineIndex == mesh.pipelineIndex) with
        | some j => i + (l.length - j)
        | none => acc := by
  induction l with
  | nil => intro i acc; simp [posAfterLastSibling]
  | cons m rest ih =>
    intro i acc
    simp only [posAfterLastSibling, List.reverse_cons, List.findIdx?_append, ih]
    rcases hfind : rest.reverse.findIdx? (fun x => x.pipelineIndex == mesh.pipelineIndex) with _ | j
    · by_cases hp : (m.pipelineIndex == mesh.pipelineIndex) = true
      · simp [List.findIdx?_cons, hp, Option.or, hfind]
      · simp [List.findIdx?_cons, hp, Option.or, hfind]
    · have hj : j < rest.length := by
        have h := List.findIdx?_eq_some_iff_findIdx_eq.mp hfind
        simpa using h.1
      rw [hfind]
      show i + 1 + (rest.length - j) = i + ((m :: rest).length - j)
      simp only [List.length_cons]
      omega

/-- The source's splice position equals the spec-worded forward scan. -/
theorem siblingMeshIndex_eq (mesh : Mesh) (l : List Mesh) :
    siblingMeshIndex l mesh = posAfterLastSibling mesh l 0 0 := by
  rw [posAfterLastSibling_eq]
  unfold siblingMeshIndex
  rcases h : l.reverse.findIdx? (fun m => m.pipelineIndex == mesh.pipelineIndex) with _ | j <;> simp

/-- `splice(i, 0, x)` is take-insert-drop. -/
theorem spliceInsert_eq_take_drop (x : α) : ∀ (i : Nat) (l : List α),
    spliceInsert i x l = l.take i ++ x :: l.drop i := by
  intro i l
  induction l generalizing i with
  | nil => simp [spliceInsert]
  | cons y ys ih =>
    cases i with
    | zero => simp [spliceInsert]
    | succ i => simp [spliceInsert, ih]

/-- Membership in a spliced list. -/
theorem mem_spliceInsert (x a : α) : ∀ (i : Nat) (l : List α),
    a ∈ spliceInsert i x l ↔ a = x ∨ a ∈ l := by
  intro i l
  induction l generalizing i with
  | nil => simp [spliceInsert]
  | cons y ys ih =>
    cases i with
    | zero =>
      simp only [spliceInsert, List.mem_cons]
    | succ i =>
      simp only [spliceInsert, List.mem_cons, ih]
      tauto

/-- The insertion algorithm exactly as claim C3 states it: collect the
current members of that same partition excluding the one being (re)inserted,
scan from the end for the last member sharing the same pipeline entry
identity and insert the drawable immediately after it (or at position `0`
if there is none), then re-sort by original creation index. -/
def claimPartitionInsert (s : Stacks) (mesh : Mesh) : List Mesh :=
  let members :=
    (if mesh.transparent then transparentStack s mesh.useProjection
     else opaqueStack s mesh.useProjection).filter (fun m => m.uuid != mesh.uuid)
  sortByIndex (spliceInsert (siblingMeshIndex members mesh) mesh members)

/-- An opaque mesh living in the unprojected stack. -/
def unprojOpaqueMesh : Mesh :=
  { uuid := 11, index := 0, renderOrder := 0, transparent := false, useProjection := false,
    pipelineIndex := 0, documentPositionZ := 0 }

/-- An opaque mesh living in the projected stack, with a different pipeline
entry. -/
def projOpaqueMesh : Mesh :=
  { uuid := 12, index := 1, renderOrder := 0, transparent := false, useProjection := true,
    pipelineIndex := 1, documentPositionZ := 0 }

/-- C3, counterexample: the insertion algorithm does not operate only on the
current members of the same partition.  With one opaque unprojected mesh
already in the scene, inserting an opaque projected mesh would produce
`[projOpaqueMesh]` under the claimed partition-local algorithm (the
projected-opaque partition is empty), but `Scene.addMesh` filters
`renderer.meshes` by transparency only, so the resulting projected-opaque
partition also contains the unprojected mesh. -/
theorem addMesh_not_partition_local :
    claimPartitionInsert (Scene.addMesh [unprojOpaqueMesh] unprojOpaqueMesh Scene.setStacks)
        projOpaqueMesh = [projOpaqueMesh] ∧
    (Scene.addMesh [unprojOpaqueMesh, projOpaqueMesh] projOpaqueMesh
        (Scene.addMesh [unprojOpaqueMesh] unprojOpaqueMesh Scene.setStacks)).projectedOpaque
      = [unprojOpaqueMesh, projOpaqueMesh] ∧
    ([unprojOpaqueMesh, projOpaqueMesh] : List Mesh) ≠ [projOpaqueMesh] :=
  ⟨by decide, by decide, by decide⟩

/-- The amended insertion algorithm, in the claim's vocabulary: collect all
meshes registered with the renderer that share the inserted mesh's
transparency flag, excluding the one being (re)inserted (regardless of which
partition they belong to); insert the mesh immediately after the last
member sharing its pipeline entry identity (at position `0` when there is
none); re-sort by original creation index. -/
def amendedInsert (rendererMeshes : List Mesh) (mesh : Mesh) : List Mesh :=
  let similar :=
    rendererMeshes.filter (fun m => m.transparent == mesh.transparent && m.uuid != mesh.uuid)
  let pos := posAfterLastSibling mesh similar 0 0
  sortByIndex (similar.take pos ++ mesh :: similar.drop pos)

/-- A list of meshes with constant render order is untouched by the final
descending render-order sort (stability of the stable sort on ties). -/
theorem sortByRenderOrderDesc_eq_self_of_const (l : List Mesh) (k : Int)
    (h : ∀ m ∈ l, m.renderOrder = k) : sortByRenderOrderDesc l = l := by
  apply List.Sorted.insertionSort_eq
  apply List.pairwise_of_forall_mem_list
  intro a ha b hb
  show b.renderOrder ≤ a.renderOrder
  rw [h a ha, h b hb]

/-- A transparent mesh used by the C3 witness (inserted while another
transparent mesh is registered). -/
def transparentSampleA : Mesh :=
  { uuid := 31, index := 0, renderOrder := 0, transparent := true, useProjection := true,
    pipelineIndex := 0, documentPositionZ := 5 }

/-- A second transparent mesh used by the C3 witness. -/
def transparentSampleB : Mesh :=
  { uuid := 32, index := 1, renderOrder := 0, transparent := true, useProjection := true,
    pipelineIndex := 0, documentPositionZ := 1 }

/-- C3, amended: whenever a drawable is (re)inserted — opaque or
transparent, projected or unprojected — the written partition is exactly
the amended insertion algorithm's output followed by the later re-sorts
(the descending render-order re-sort; for transparent partitions also the
descending-z re-sort before it): the insertion core operates on all
renderer meshes sharing the mesh's transparency flag excluding the one
being inserted — not only on members of that same partition — inserts
after the last member with the same pipeline entry identity (or at
position 0), and re-sorts by original creation index; and the stable
render-order re-sort leaves any constant-render-order result untouched, so
under equal render orders the partition is exactly the insertion core's
output (z-sorted when transparent). -/
theorem addMesh_partition_content :
    (∀ (rendererMeshes : List Mesh) (mesh : Mesh) (s : Stacks),
      mesh.transparent = false →
      opaqueStack (Scene.addMesh rendererMeshes mesh s) mesh.useProjection
        = sortByRenderOrderDesc (amendedInsert rendererMeshes mesh)) ∧
    (∀ (rendererMeshes : List Mesh) (mesh : Mesh) (s : Stacks),
      mesh.transparent = true →
      transparentStack (Scene.addMesh rendererMeshes mesh s) mesh.useProjection
        = sortByRenderOrderDesc (sortByZDesc (amendedInsert rendererMeshes mesh))) ∧
    (∀ (l : List Mesh) (k : Int),
      (∀ m ∈ l, m.renderOrder = k) → sortByRenderOrderDesc l = l) := by
  refine ⟨?_, ?_, sortByRenderOrderDesc_eq_self_of_const⟩
  · intro rendererMeshes mesh s htr
    have hmain : sortByRenderOrderDesc (sortByIndex (spliceInsert
        (siblingMeshIndex (rendererMeshes.filter
          (fun m => m.transparent == false && m.uuid != mesh.uuid)) mesh) mesh
        (rendererMeshes.filter (fun m => m.transparent == false && m.uuid != mesh.uuid))))
        = sortByRenderOrderDesc (amendedInsert rendererMeshes mesh) := by
      simp only [amendedInsert]
      rw [htr, siblingMeshIndex_eq, spliceInsert_eq_take_drop]
    unfold Scene.addMesh
    rw [htr]
    cases hproj : mesh.useProjection <;> simp [opaqueStack] <;> simpa using hmain
  · intro rendererMeshes mesh s htr
    have hmain : sortByRenderOrderDesc (sortByZDesc (sortByIndex (spliceInsert
        (siblingMeshIndex (rendererMeshes.filter
          (fun m => m.transparent == true && m.uuid != mesh.uuid)) mesh) mesh
        (rendererMeshes.filter (fun m => m.transparent == true && m.uuid != mesh.uuid)))))
        = sortByRenderOrderDesc (sortByZDesc (amendedInsert rendererMeshes mesh)) := by
      simp only [amendedInsert]
      rw [htr, siblingMeshIndex_eq, spliceInsert_eq_take_drop]
    unfold Scene.addMesh
    rw [htr]
    cases hproj : mesh.useProjection <;> simp [transparentStack] <;> simpa using hmain

/-- C3, witness: the opaque conjunct at the two-mesh scenario of the
counterexample, the transparent conjunct at a concrete transparent
insertion, and the tie-stability conjunct at a concrete constant-render-
order list. -/
theorem addMesh_partition_content_witness :
    opaqueStack
        (Scene.addMesh [unprojOpaqueMesh, projOpaqueMesh] projOpaqueMesh
          (Scene.addMesh [unprojOpaqueMesh] unprojOpaqueMesh Scene.setStacks))
        projOpaqueMesh.useProjection
      = sortByRenderOrderDesc (amendedInsert [unprojOpaqueMesh, projOpaqueMesh] projOpaqueMesh) ∧
    transparentStack
        (Scene.addMesh [transparentSampleA, transparentSampleB] transparentSampleB
          Scene.setStacks)
        transparentSampleB.useProjection
      = sortByRenderOrderDesc
          (sortByZDesc (amendedInsert [transparentSampleA, transparentSampleB]
            transparentSampleB)) ∧
    sortByRenderOrderDesc [unprojOpaqueMesh, projOpaqueMesh]
      = [unprojOpaqueMesh, projOpaqueMesh] :=
  ⟨addMesh_partition_content.1 [unprojOpaqueMesh, projOpaqueMesh] projOpaqueMesh
     (Scene.addMesh [unprojOpaqueMesh] unprojOpaqueMesh Scene.setStacks) rfl,
   addMesh_partition_content.2.1 [transparentSampleA, transparentSampleB] transparentSampleB
     Scene.setStacks rfl,
   addMesh_partition_content.2.2 [unprojOpaqueMesh, projOpaqueMesh] 0 (by decide)⟩

/-! ## Transparency ordering (C4) -/

/-- A transparent projected mesh at document z `5`, inserted first. -/
def depth5Mesh : Mesh :=
  { uuid := 21, index := 0, renderOrder := 0, transparent := true, useProjection := true,
    pipelineIndex := 0, documentPositionZ := 5 }

/-- A transparent projected mesh at document z `1`, inserted second. -/
def depth1Mesh : Mesh :=
  { uuid := 22, index := 1, renderOrder := 0, transparent := true, useProjection := true,
    pipelineIndex := 0, documentPositionZ := 1 }

/-- A transparent projected mesh at document z `3`, inserted third. -/
def depth3Mesh : Mesh :=
  { uuid := 23, index := 2, renderOrder := 0, transparent := true, useProjection := true,
    pipelineIndex := 0, documentPositionZ := 3 }

/-- C4: inserting three transparent drawables at depths `5`, `1` and `3`
with equal render order leaves the transparent partition ordered
`[depth 5, depth 3, depth 1]`; and in general, for a transparent mesh
inserted while all registered meshes share its render order, the written
transparent partition is sorted by descending document z (farthest first,
back to front). -/
theorem transparency_ordering :
    (Scene.addMesh [depth5Mesh, depth1Mesh, depth3Mesh] depth3Mesh
        (Scene.addMesh [depth5Mesh, depth1Mesh] depth1Mesh
          (Scene.addMesh [depth5Mesh] depth5Mesh Scene.setStacks))).projectedTransparent
      = [depth5Mesh, depth3Mesh, depth1Mesh] ∧
    (∀ (rendererMeshes : List Mesh) (mesh : Mesh) (s : Stacks),
      mesh.transparent = true →
      (∀ m ∈ rendererMeshes, m.renderOrder = mesh.renderOrder) →
      List.Sorted meshZDescLe
        (transparentStack (Scene.addMesh rendererMeshes mesh s) mesh.useProjection)) := by
  constructor
  · decide
  · intro rendererMeshes mesh s htr hro
    have hconst : ∀ m ∈ sortByZDesc (sortByIndex (spliceInsert
        (siblingMeshIndex (rendererMeshes.filter
          (fun m => m.transparent == true && m.uuid != mesh.uuid)) mesh) mesh
        (rendererMeshes.filter (fun m => m.transparent == true && m.uuid != mesh.uuid)))),
        m.renderOrder = mesh.renderOrder := by
      intro m hm
      have hm1 := (List.mem_insertionSort _).mp hm
      have hm2 := (List.mem_insertionSort _).mp hm1
      rcases (mem_spliceInsert _ _ _ _).mp hm2 with rfl | hm3
      · rfl
      · exact hro m (List.mem_of_mem_filter hm3)
    have hmain : List.Sorted meshZDescLe (sortByRenderOrderDesc (sortByZDesc (sortByIndex
        (spliceInsert
          (siblingMeshIndex (rendererMeshes.filter
            (fun m => m.transparent == true && m.uuid != mesh.uuid)) mesh) mesh
          (rendererMeshes.filter (fun m => m.transparent == true && m.uuid != mesh.uuid)))))) := by
      rw [sortByRenderOrderDesc_eq_self_of_const _ mesh.renderOrder hconst]
      exact List.sorted_insertionSort meshZDescLe _
    unfold Scene.addMesh
    rw [htr]
    cases hproj : mesh.useProjection <;> simp [transparentStack] <;> simpa using hmain

/-- C4, witness: the general back-to-front statement instantiated at the
concrete three-mesh scenario. -/
theorem transparency_ordering_witness :
    (Scene.addMesh [depth5Mesh, depth1Mesh, depth3Mesh] depth3Mesh
        (Scene.addMesh [depth5Mesh, depth1Mesh] depth1Mesh
          (Scene.addMesh [depth5Mesh] depth5Mesh Scene.setStacks))).projectedTransparent
      = [depth5Mesh, depth3Mesh, depth1Mesh] ∧
    List.Sorted meshZDescLe
      (transparentStack
        (Scene.addMesh [depth5Mesh, depth1Mesh, depth3Mesh] depth3Mesh Scene.setStacks)
        depth3Mesh.useProjection) :=
  ⟨transparency_ordering.1,
    transparency_ordering.2 [depth5Mesh, depth1Mesh, depth3Mesh] depth3Mesh Scene.setStacks rfl
      (by decide)⟩

/-! ## Bind group creation predicate (C5, `TextureBindGroup.shouldCreateBindGroup`) -/

/-- A texture as `shouldCreateBindGroup` inspects it: whether its GPU
`texture` handle exists and whether its `externalTexture` handle exists. -/
structure BindGroupTexture where
  texture : Bool
  externalTexture : Bool
deriving DecidableEq, Repr

/-- A sampler as `shouldCreateBindGroup` inspects it: whether its GPU
`sampler` handle exists. -/
structure BindGroupSampler where
  sampler : Bool
deriving DecidableEq, Repr

/-- The state of a `TextureBindGroup` that its creation predicate reads:
whether the device bind group handle exists, its bindings (each carrying its
underlying resource or `none`), and its textures and samplers arrays. -/
structure TextureBindGroupState where
  bindGroup : Bool
  bindings : List (Option Unit)
  textures : List BindGroupTexture
  samplers : List BindGroupSampler
deriving DecidableEq, Repr

/-- `TextureBindGroup.shouldCreateBindGroup` (the getter):
`!this.bindGroup && !!this.bindings.length
 && !this.textures.find((t) => !(t.texture || t.externalTexture))
 && !this.samplers.find((s) => !s.sampler)`. -/
def TextureBindGroup.shouldCreateBindGroup (g : TextureBindGroupState) : Bool :=
  !g.bindGroup && !(g.bindings.length == 0) &&
    !(g.textures.any (fun t => !(t.texture || t.externalTexture))) &&
    !(g.samplers.any (fun s => !s.sampler))

/-- The creation predicate exactly as claim C5 states it: true iff the
device bind group has not been created yet and every binding's underlying
resource is non-null (so a bind group with zero bindings is trivially
ready). -/
def claimCanCreate (g : TextureBindGroupState) : Bool :=
  !g.bindGroup && g.bindings.all (fun r => r.isSome)

/-- A bind group with no bindings, no textures, no samplers and no device
handle yet. -/
def emptyBindGroup : TextureBindGroupState :=
  { bindGroup := false, bindings := [], textures := [], samplers := [] }

/-- C5, counterexample: a bind group with zero bindings is NOT trivially
ready: the claimed predicate is true on it, but the source's
`shouldCreateBindGroup` requires `!!this.bindings.length` and returns
false. -/
theorem shouldCreateBindGroup_zero_bindings_counterexample :
    claimCanCreate emptyBindGroup = true ∧
    TextureBindGroup.shouldCreateBindGroup emptyBindGroup = false :=
  ⟨rfl, rfl⟩

/-- C5, amended: `shouldCreateBindGroup` is true iff the device bind group
has not been created yet AND the bind group has at least one binding AND
every texture has its GPU texture or external texture AND every sampler has
its GPU sampler; in particular a bind group with zero bindings is never
ready to be created. -/
theorem shouldCreateBindGroup_iff (g : TextureBindGroupState) :
    TextureBindGroup.shouldCreateBindGroup g = true ↔
      (g.bindGroup = false ∧ g.bindings ≠ [] ∧
        (∀ t ∈ g.textures, t.texture = true ∨ t.externalTexture = true) ∧
        (∀ smp ∈ g.samplers, smp.sampler = true)) := by
  unfold TextureBindGroup.shouldCreateBindGroup
  simp only [Bool.and_eq_true, Bool.not_eq_true', List.any_eq_false, Bool.not_or,
    Bool.not_eq_true]
  constructor
  · rintro ⟨⟨⟨hg, hb⟩, ht⟩, hs⟩
    refine ⟨hg, ?_, ?_, ?_⟩
    · intro hnil
      rw [hnil] at hb
      simp at hb
    · intro t htm
      have := ht t htm
      rcases t with ⟨tex, ext⟩
      cases tex <;> cases ext <;> simp_all
    · intro smp hsm
      have := hs smp hsm
      simp_all
  · rintro ⟨hg, hb, ht, hs⟩
    refine ⟨⟨⟨hg, ?_⟩, ?_⟩, ?_⟩
    · have hlen : g.bindings.length ≠ 0 := by
        intro h0
        exact hb (List.length_eq_zero.mp h0)
      simpa using hlen
    · intro t htm
      have := ht t htm
      rcases t with ⟨tex, ext⟩
      cases tex <;> cases ext <;> simp_all
    · intro smp hsm
      have := hs smp hsm
      simp_all

/-- C5, witness: the amended iff instantiated at a concrete one-binding
bind group. -/
theorem shouldCreateBindGroup_iff_witness :
    TextureBindGroup.shouldCreateBindGroup
        { bindGroup := false, bindings := [some ()],
          textures := [{ texture := true, externalTexture := false }],
          samplers := [{ sampler := true }] } = true ↔
      ((false : Bool) = false ∧ ([some ()] : List (Option Unit)) ≠ [] ∧
        (∀ t ∈ [({ texture := true, externalTexture := false } : BindGroupTexture)],
          t.texture = true ∨ t.externalTexture = true) ∧
        (∀ smp ∈ [({ sampler := true } : BindGroupSampler)], smp.sampler = true)) :=
  shouldCreateBindGroup_iff
    { bindGroup := false, bindings := [some ()],
      textures := [{ texture := true, externalTexture := false }],
      samplers := [{ sampler := true }] }

/-- C1, witness: the traversal equality instantiated at the concrete
two-shader-pass stacks. -/
theorem scene_render_traversal_order_witness :
    Scene.render true registrationStacks = claimedTraversal true registrationStacks :=
  scene_render_traversal_order true registrationStacks

/-! ## Shader patching (C6, `RenderPipelineEntry.patchShaders`)

The bind-group emission loop of `patchShaders` collects one record per WGSL
group fragment (with a per-group `bindIndex` counter and a `newLine` marker
on the last fragment of the last binding), then folds over the records,
prepending not-yet-present struct fragments and appending
`@group(<index>) @binding(<position>) <fragment>` declarations that are not
yet present in the shader head.  We model the visibility-independent
emission into the `full` shader head (`ComputePass.d.ts` lines 223–242 and
285–293).  JavaScript `head.indexOf(s) !== -1` is the substring test
`strContains`. -/

/-- JS `head.indexOf(s) !== -1`: `s` occurs as a substring of `head`. -/
def strContains (h s : String) : Bool := decide (s.toList <:+: h.toList)

/-- A binding as the patching loop reads it: its shader-stage visibility
bitmask, its optional WGSL struct fragment, and its WGSL group fragments. -/
structure ShaderBinding where
  visibility : Nat
  wgslStructFragment : Option String
  wgslGroupFragment : List String
deriving DecidableEq, Repr

/-- A bind group as the patching loop reads it. -/
structure ShaderBindGroup where
  index : Nat
  bindings : List ShaderBinding
deriving DecidableEq, Repr

/-- One entry of the `groupsBindings` array built by `patchShaders`. -/
structure GroupBindingItem where
  groupIndex : Nat
  visibility : Nat
  bindIndex : Nat
  wgslStructFragment : Option String
  wgslGroupFragment : String
  newLine : Bool
deriving DecidableEq, Repr

/-- The records produced for one binding: one per group fragment, with the
`bindIndex` counter continuing at `bindStart` and `newLine` set on the last
fragment of the last binding of the group. -/
def itemsOfBinding (gIdx bindStart : Nat) (b : ShaderBinding) (lastBinding : Bool) :
    List GroupBindingItem :=
  b.wgslGroupFragment.enum.map (fun p =>
    { groupIndex := gIdx, visibility := b.visibility, bindIndex := bindStart + p.1,
      wgslStructFragment := b.wgslStructFragment, wgslGroupFragment := p.2,
      newLine := lastBinding && (p.1 + 1 == b.wgslGroupFragment.length) })

/-- The records produced for a group's bindings in declaration order, the
`bindIndex` counter threading through. -/
def itemsOfBindings (gIdx : Nat) : Nat → List ShaderBinding → List GroupBindingItem
  | _, [] => []
  | bindStart, b :: rest =>
    itemsOfBinding gIdx bindStart b rest.isEmpty ++
      itemsOfBindings gIdx (bindStart + b.wgslGroupFragment.length) rest

/-- All records of one bind group (`bindIndex` restarts at `0`). -/
def itemsOfGroup (g : ShaderBindGroup) : List GroupBindingItem :=
  itemsOfBindings g.index 0 g.bindings

/-- The `groupsBindings` array: records of every group, in the order the
bind groups appear in `this.bindGroups`. -/
def collectGroupsBindings (groups : List ShaderBindGroup) : List GroupBindingItem :=
  (groups.map itemsOfGroup).flatten

/-- The struct-fragment half of one emission step: prepend
`"\n" + struct + "\n"` unless the struct fragment is already present. -/
def emitStructPart (head : String) (it : GroupBindingItem) : String :=
  match it.wgslStructFragment with
  | some sf => if strContains head sf then head else "\n" ++ sf ++ "\n" ++ head
  | none => head

/-- The group-fragment half of one emission step: append
`"\n@group(<index>) @binding(<position>) " + fragment` (plus a newline when
flagged) unless the fragment is already present. -/
def emitFragmentPart (head : String) (it : GroupBindingItem) : String :=
  if strContains head it.wgslGroupFragment then head
  else
    let h2 := head ++ "\n@group(" ++ toString it.groupIndex ++ ") @binding(" ++
      toString it.bindIndex ++ ") " ++ it.wgslGroupFragment
    if it.newLine then h2 ++ "\n" else h2

/-- One iteration of the `groupsBindings.forEach` emission loop on the full
shader head. -/
def emitItemFull (head : String) (it : GroupBindingItem) : String :=
  emitFragmentPart (emitStructPart head it) it

/-- The full-shader-head bind-group emission of `patchShaders`, starting
from the head already holding the chunk and attribute text. -/
def RenderPipelineEntry.patchFullHead (initialHead : String) (groups : List ShaderBindGroup) :
    String :=
  (collectGroupsBindings groups).foldl emitItemFull initialHead

/-- The emission as claim C6 states it: bind groups processed in index
order (here: explicitly sorted by ascending index), bindings in declaration
order with the position counter ascending within the group, duplicates
skipped. -/
def claimPatchFullHead (initialHead : String) (groups : List ShaderBindGroup) : String :=
  (collectGroupsBindings (groups.insertionSort (fun a b => a.index ≤ b.index))).foldl
    emitItemFull initialHead

/-- Total number of WGSL group fragments over a group's bindings. -/
def totalFragments (bs : List ShaderBinding) : Nat :=
  (bs.map (fun b => b.wgslGroupFragment.length)).sum

/-- Mapping a function of the index over `enum` is mapping it over `range`. -/
theorem enum_map_fst_comp (f : Nat → β) (l : List α) :
    l.enum.map (fun p => f p.1) = (List.range l.length).map f := by
  rw [← List.enum_map_fst l, List.map_map]
  rfl

/-- The bind positions of one binding's records are consecutive from the
starting counter. -/
theorem itemsOfBinding_map_bindIndex (gIdx s : Nat) (b : ShaderBinding) (lb : Bool) :
    (itemsOfBinding gIdx s b lb).map (fun it => it.bindIndex) =
      (List.range b.wgslGroupFragment.length).map (fun k => s + k) := by
  simp only [itemsOfBinding, List.map_map]
  exact enum_map_fst_comp (fun k => s + k) b.wgslGroupFragment

/-- The bind positions over a group's bindings are consecutive from the
starting counter. -/
theorem itemsOfBindings_map_bindIndex (gIdx : Nat) (bs : List ShaderBinding) :
    ∀ s : Nat, (itemsOfBindings gIdx s bs).map (fun it => it.bindIndex) =
      (List.range (totalFragments bs)).map (fun k => s + k) := by
  induction bs with
  | nil => intro s; simp [itemsOfBindings, totalFragments]
  | cons b rest ih =>
    intro s
    simp only [itemsOfBindings, List.map_append, itemsOfBinding_map_bindIndex, ih,
      totalFragments, List.map_cons, List.sum_cons]
    rw [List.range_add, List.map_append, List.map_map]
    congr 1
    simp [Function.comp_def, Nat.add_assoc]

/-- Substring containment survives appending on the right. -/
theorem strContains_append_right (h t s : String) (hc : strContains h s = true) :
    strContains (h ++ t) s = true := by
  simp only [strContains, decide_eq_true_eq] at hc ⊢
  show s.toList <:+: h.toList ++ t.toList
  exact hc.trans (List.prefix_append h.toList t.toList).isInfix

/-- Substring containment survives prepending on the left. -/
theorem strContains_append_left (h t s : String) (hc : strContains h s = true) :
    strContains (t ++ h) s = true := by
  simp only [strContains, decide_eq_true_eq] at hc ⊢
  show s.toList <:+: t.toList ++ h.toList
  exact hc.trans (List.suffix_append t.toList h.toList).isInfix

/-- A string contains its own suffix. -/
theorem strContains_suffix (t s : String) : strContains (t ++ s) s = true := by
  simp only [strContains, decide_eq_true_eq]
  show s.toList <:+: t.toList ++ s.toList
  exact (List.suffix_append t.toList s.toList).isInfix

/-- The struct half of an emission step preserves containment. -/
theorem emitStructPart_preserves (h : String) (it : GroupBindingItem) (s : String)
    (hc : strContains h s = true) : strContains (emitStructPart h it) s = true := by
  unfold emitStructPart
  cases hsf : it.wgslStructFragment with
  | none => exact hc
  | some sf =>
    by_cases hin : strContains h sf = true
    · simp [hin, hc]
    · simp only [Bool.not_eq_true] at hin
      simp only [hin, if_false]
      exact strContains_append_left h ("\n" ++ sf ++ "\n") s hc

/-- The fragment half of an emission step preserves containment. -/
theorem emitFragmentPart_preserves (h : String) (it : GroupBindingItem) (s : String)
    (hc : strContains h s = true) : strContains (emitFragmentPart h it) s = true := by
  unfold emitFragmentPart
  by_cases hin : strContains h it.wgslGroupFragment = true
  · simp [hin, hc]
  · simp only [Bool.not_eq_true] at hin
    simp only [hin, if_false]
    have hstep : ∀ (x y : String), strContains x s = true → strContains (x ++ y) s = true :=
      fun x y => strContains_append_right x y s
    by_cases hnl : it.newLine = true
    · simp only [hnl, if_true]
      exact hstep _ _ (hstep _ _ (hstep _ _ (hstep _ _ (hstep _ _ (hstep _ _ (hstep _ _ hc))))))
    · simp only [Bool.not_eq_true] at hnl
      simp only [hnl, Bool.false_eq_true, if_false]
      exact hstep _ _ (hstep _ _ (hstep _ _ (hstep _ _ (hstep _ _ (hstep _ _ hc)))))

/-- An emission step preserves containment. -/
theorem emitItemFull_preserves (h : String) (it : GroupBindingItem) (s : String)
    (hc : strContains h s = true) : strContains (emitItemFull h it) s = true :=
  emitFragmentPart_preserves _ it s (emitStructPart_preserves h it s hc)

/-- After the fragment half of an emission step the fragment is present. -/
theorem emitFragmentPart_contains (h : String) (it : GroupBindingItem) :
    strContains (emitFragmentPart h it) it.wgslGroupFragment = true := by
  unfold emitFragmentPart
  by_cases hin : strContains h it.wgslGroupFragment = true
  · simp [hin]
  · simp only [Bool.not_eq_true] at hin
    simp only [hin, if_false]
    by_cases hnl : it.newLine = true
    · simp only [hnl, if_true]
      exact strContains_append_right _ "\n" _ (strContains_suffix _ _)
    · simp only [Bool.not_eq_true] at hnl
      simp only [hnl, Bool.false_eq_true, if_false]
      exact strContains_suffix _ _

/-- After an emission step the group fragment is present. -/
theorem emitItemFull_contains_fragment (h : String) (it : GroupBindingItem) :
    strContains (emitItemFull h it) it.wgslGroupFragment = true :=
  emitFragmentPart_contains _ it

/-- After the struct half of an emission step the struct fragment is
present. -/
theorem emitStructPart_contains (h : String) (it : GroupBindingItem) (sf : String)
    (hsf : it.wgslStructFragment = some sf) :
    strContains (emitStructPart h it) sf = true := by
  unfold emitStructPart
  rw [hsf]
  by_cases hin : strContains h sf = true
  · simp [hin]
  · simp only [Bool.not_eq_true] at hin
    simp only [hin, if_false]
    exact strContains_append_right _ _ _
      (strContains_append_right _ _ _ (strContains_suffix "\n" sf))

/-- After an emission step the struct fragment is present. -/
theorem emitItemFull_contains_struct (h : String) (it : GroupBindingItem) (sf : String)
    (hsf : it.wgslStructFragment = some sf) :
    strContains (emitItemFull h it) sf = true :=
  emitFragmentPart_preserves _ it sf (emitStructPart_contains h it sf hsf)

/-- A declaration whose fragments are already present in the head is not
emitted again: the emission step is the identity. -/
theorem emitItemFull_skip (h : String) (it : GroupBindingItem)
    (hfrag : strContains h it.wgslGroupFragment = true)
    (hstruct : ∀ sf, it.wgslStructFragment = some sf → strContains h sf = true) :
    emitItemFull h it = h := by
  have hsp : emitStructPart h it = h := by
    unfold emitStructPart
    cases hsf : it.wgslStructFragment with
    | none => rfl
    | some sf => simp [hstruct sf hsf]
  unfold emitItemFull
  rw [hsp]
  unfold emitFragmentPart
  simp [hfrag]

/-- The emission fold preserves containment. -/
theorem foldl_emit_preserves (items : List GroupBindingItem) :
    ∀ (h s : String), strContains h s = true →
      strContains (items.foldl emitItemFull h) s = true := by
  induction items with
  | nil => intro h s hc; exact hc
  | cons it rest ih => intro h s hc; exact ih _ s (emitItemFull_preserves h it s hc)

/-- After the emission fold every processed fragment (group or struct) is
present in the head. -/
theorem foldl_emit_contains (items : List GroupBindingItem) :
    ∀ (h : String) (it : GroupBindingItem), it ∈ items →
      strContains (items.foldl emitItemFull h) it.wgslGroupFragment = true ∧
      ∀ sf, it.wgslStructFragment = some sf →
        strContains (items.foldl emitItemFull h) sf = true := by
  induction items with
  | nil => intro h it hmem; cases hmem
  | cons x rest ih =>
    intro h it hmem
    rcases List.mem_cons.mp hmem with rfl | hmem2
    · constructor
      · exact foldl_emit_preserves rest _ _ (emitItemFull_contains_fragment h it)
      · intro sf hsf
        exact foldl_emit_preserves rest _ _ (emitItemFull_contains_struct h it sf hsf)
    · exact ih _ it hmem2

/-- Folding the emission over items whose fragments are all already present
changes nothing. -/
theorem foldl_emit_fixed (items : List GroupBindingItem) :
    ∀ (h : String),
      (∀ it ∈ items, strContains h it.wgslGroupFragment = true ∧
        ∀ sf, it.wgslStructFragment = some sf → strContains h sf = true) →
      items.foldl emitItemFull h = h := by
  induction items with
  | nil => intro h _; rfl
  | cons x rest ih =>
    intro h hall
    have hx := hall x (List.mem_cons_self x rest)
    have hskip := emitItemFull_skip h x hx.1 hx.2
    rw [List.foldl_cons, hskip]
    exact ih h (fun it hmem => hall it (List.mem_cons_of_mem x hmem))

/-- C6: the shader-patching emission (i) processes bind groups in index
order — for bind groups listed in ascending index order it coincides with
the claim's explicitly sorted emission; (ii) assigns, within each group,
binding positions that ascend from `0` one per declared fragment, in
declaration order; (iii) skips a declaration whose struct and group
fragments are already present in the shader head; and (iv) is idempotent:
re-emitting the same bind groups adds nothing, so a structurally identical
fragment referenced by multiple bindings is emitted only once. -/
theorem patch_shaders_emission :
    (∀ (h : String) (groups : List ShaderBindGroup),
      groups.Pairwise (fun a b => a.index ≤ b.index) →
      RenderPipelineEntry.patchFullHead h groups = claimPatchFullHead h groups) ∧
    (∀ (gIdx : Nat) (bs : List ShaderBinding),
      (itemsOfBindings gIdx 0 bs).map (fun it => it.bindIndex) =
        List.range (totalFragments bs)) ∧
    (∀ (h : String) (it : GroupBindingItem),
      strContains h it.wgslGroupFragment = true →
      (∀ sf, it.wgslStructFragment = some sf → strContains h sf = true) →
      emitItemFull h it = h) ∧
    (∀ (h : String) (groups : List ShaderBindGroup),
      RenderPipelineEntry.patchFullHead (RenderPipelineEntry.patchFullHead h groups) groups =
        RenderPipelineEntry.patchFullHead h groups) := by
  refine ⟨?_, ?_, ?_, ?_⟩
  · intro h groups hsorted
    unfold RenderPipelineEntry.patchFullHead claimPatchFullHead
    rw [List.Sorted.insertionSort_eq hsorted]
  · intro gIdx bs
    rw [itemsOfBindings_map_bindIndex]
    simp [Nat.zero_add]
  · exact emitItemFull_skip
  · intro h groups
    unfold RenderPipelineEntry.patchFullHead
    exact foldl_emit_fixed _ _ (fun it hm => foldl_emit_contains _ h it hm)

/-- A binding with a struct fragment and two group fragments. -/
def sampleBinding : ShaderBinding :=
  { visibility := 7, wgslStructFragment := some "struct Params",
    wgslGroupFragment := ["var u: Params;", "var v: Params;"] }

/-- A bind group at index `0`. -/
def sampleGroupZero : ShaderBindGroup := { index := 0, bindings := [sampleBinding] }

/-- A bind group at index `1`. -/
def sampleGroupOne : ShaderBindGroup := { index := 1, bindings := [sampleBinding] }

/-- A record whose fragment is already present in the sample head. -/
def sampleItem : GroupBindingItem :=
  { groupIndex := 0, visibility := 7, bindIndex := 0, wgslStructFragment := none,
    wgslGroupFragment := "var u: Params;", newLine := false }

/-- C6, witness: the four emission statements instantiated at concrete
groups, bindings and heads. -/
theorem patch_shaders_emission_witness :
    RenderPipelineEntry.patchFullHead "" [sampleGroupZero, sampleGroupOne] =
      claimPatchFullHead "" [sampleGroupZero, sampleGroupOne] ∧
    (itemsOfBindings 0 0 [sampleBinding]).map (fun it => it.bindIndex) =
      List.range (totalFragments [sampleBinding]) ∧
    emitItemFull "var u: Params;" sampleItem = "var u: Params;" ∧
    RenderPipelineEntry.patchFullHead
        (RenderPipelineEntry.patchFullHead "" [sampleGroupZero]) [sampleGroupZero] =
      RenderPipelineEntry.patchFullHead "" [sampleGroupZero] :=
  ⟨patch_shaders_emission.1 "" [sampleGroupZero, sampleGroupOne] (by decide),
   patch_shaders_emission.2.1 0 [sampleBinding],
   patch_shaders_emission.2.2.1 "var u: Params;" sampleItem (by decide)
     (fun sf hsf => nomatch hsf),
   patch_shaders_emission.2.2.2 "" [sampleGroupZero]⟩

/-! ## Same-module shader optimization (C7, `RenderPipelineEntry.createShaders`)

`patchShaders` builds `vertex.code = vertex.head + options.vertex.code`,
`fragment.code = fragment.head + options.fragment.code` and
`full.code = full.head + vertex code (+ fragment code unless the same-shader
test holds)`, with the attribute struct prepended to the vertex and full
heads only.  `createShaders` then calls `createShaderModule` once for each
stage, choosing the `full` code for both when
`vertex.entryPoint !== fragment.entryPoint &&
vertex.code.localeCompare(fragment.code) === 0`.  The heads are taken as
parameters standing for `this.shaders.*.head` after the chunk and bind-group
emission; `localeCompare(...) === 0` is modelled as string equality. -/

/-- One shader stage's user options: source text and entry point. -/
structure ShaderStageOptions where
  code : String
  entryPoint : String
deriving DecidableEq, Repr

/-- The options `patchShaders`/`createShaders` read: both stages plus the
geometry attributes WGSL struct fragment. -/
structure RenderShaderOptions where
  vertexShader : ShaderStageOptions
  fragmentShader : ShaderStageOptions
  attributesWgslStructFragment : String
deriving DecidableEq, Repr

/-- The same-shader test: different entry points and identical user
source. -/
def isSameShader (o : RenderShaderOptions) : Bool :=
  o.vertexShader.entryPoint != o.fragmentShader.entryPoint &&
    o.vertexShader.code == o.fragmentShader.code

/-- The three patched code strings built at the end of `patchShaders`. -/
structure PatchedShaders where
  vertexCode : String
  fragmentCode : String
  fullCode : String
deriving DecidableEq, Repr

/-- Lines 296–312 of the patching: attributes prepended to the vertex and
full heads, stage codes appended, the fragment source appended to the full
code only when the same-shader test fails. -/
def patchShadersCodes (vertexHead fragmentHead fullHead : String) (o : RenderShaderOptions) :
    PatchedShaders :=
  let vHead := o.attributesWgslStructFragment ++ "\n" ++ vertexHead
  let fuHead := o.attributesWgslStructFragment ++ "\n" ++ fullHead
  { vertexCode := vHead ++ o.vertexShader.code
    fragmentCode := fragmentHead ++ o.fragmentShader.code
    fullCode :=
      if isSameShader o then fuHead ++ o.vertexShader.code
      else fuHead ++ o.vertexShader.code ++ o.fragmentShader.code }

/-- One `createShaderModule` invocation: the code compiled and the stage
label passed. -/
structure ShaderModuleCall where
  code : String
  stageType : String
deriving DecidableEq, Repr

/-- `createShaders`: patch, then create the vertex and fragment stage
modules, from the shared full code when the same-shader test holds and from
each stage's own patched code otherwise. -/
def RenderPipelineEntry.createShaders (vertexHead fragmentHead fullHead : String)
    (o : RenderShaderOptions) : List ShaderModuleCall :=
  let p := patchShadersCodes vertexHead fragmentHead fullHead o
  [{ code := if isSameShader o then p.fullCode else p.vertexCode, stageType := "vertex" },
   { code := if isSameShader o then p.fullCode else p.fragmentCode, stageType := "fragment" }]

/-- Identical user sources with the SAME entry point `main` for both
stages. -/
def samePointOptions : RenderShaderOptions :=
  { vertexShader := { code := "X", entryPoint := "main" },
    fragmentShader := { code := "X", entryPoint := "main" },
    attributesWgslStructFragment := "A" }

/-- C7, counterexample: with identical user-authored source text but equal
entry points, the same-shader test fails and the two stages are compiled
from different patched sources (`"A\nX"` with the attribute struct for the
vertex stage, `"X"` for the fragment stage) — not from one shared module. -/
theorem shared_source_not_single_module :
    samePointOptions.vertexShader.code = samePointOptions.fragmentShader.code ∧
    isSameShader samePointOptions = false ∧
    (RenderPipelineEntry.createShaders "" "" "" samePointOptions).map
        (fun c => c.code) = ["A\nX", "X"] ∧
    ("A\nX" : String) ≠ "X" :=
  ⟨rfl, rfl, by decide, by decide⟩

/-- C7, amended: when the vertex and fragment stages share identical
user-authored source text AND have distinct entry points, both stage
modules are created from one and the same combined source — the full code,
which contains the shared user source exactly once after the full head and
attributes. -/
theorem same_shader_single_source (vertexHead fragmentHead fullHead : String)
    (o : RenderShaderOptions)
    (hep : o.vertexShader.entryPoint ≠ o.fragmentShader.entryPoint)
    (hcode : o.vertexShader.code = o.fragmentShader.code) :
    ∀ c ∈ RenderPipelineEntry.createShaders vertexHead fragmentHead fullHead o,
      c.code = o.attributesWgslStructFragment ++ "\n" ++ fullHead ++ o.vertexShader.code := by
  have hsame : isSameShader o = true := by
    simp [isSameShader, bne_iff_ne, hep, hcode]
  intro c hc
  unfold RenderPipelineEntry.createShaders patchShadersCodes at hc
  simp only [hsame, if_true] at hc
  rcases List.mem_cons.mp hc with rfl | hc2
  · rfl
  · rcases List.mem_cons.mp hc2 with rfl | hc3
    · rfl
    · cases hc3

/-- Identical user sources with distinct entry points. -/
def diffPointOptions : RenderShaderOptions :=
  { vertexShader := { code := "X", entryPoint := "vsMain" },
    fragmentShader := { code := "X", entryPoint := "fsMain" },
    attributesWgslStructFragment := "A" }

/-- C7, witness: the amended statement applied to the vertex-stage module
call of a concrete same-source, distinct-entry-point configuration. -/
theorem same_shader_single_source_witness :
    ({ code := "A\nX", stageType := "vertex" } : ShaderModuleCall).code =
      diffPointOptions.attributesWgslStructFragment ++ "\n" ++ "" ++
        diffPointOptions.vertexShader.code :=
  same_shader_single_source "" "" "" diffPointOptions (by decide) rfl
    { code := "A\nX", stageType := "vertex" } (by decide)

/-! ## Compatible resource updates never flush (C8) -/

/-- The flush-relevant state of a `TextureBindGroup` (legacy core):
the indices of textures already registered as external (video) textures and
the pipeline flush flag. -/
structure TextureBindGroupFlushState where
  externalTexturesIndex : List Nat
  needsPipelineFlush : Bool
deriving DecidableEq, Repr

/-- `TextureBindGroup.shouldUpdateVideoTextureBindGroupLayout(textureIndex)`:
if the index is already registered, return `false` without touching any
flag; otherwise register it, set `needsPipelineFlush` and return `true`. -/
def TextureBindGroup.shouldUpdateVideoTextureBindGroupLayout
    (s : TextureBindGroupFlushState) (textureIndex : Nat) :
    TextureBindGroupFlushState × Bool :=
  if s.externalTexturesIndex.contains textureIndex then (s, false)
  else
    ({ externalTexturesIndex := s.externalTexturesIndex ++ [textureIndex],
       needsPipelineFlush := true }, true)

/-- The state of a `SamplerBinding` that its `resource` setter touches: the
GPU sampler (or `null`) and the reset flag.  The binding has no pipeline
flush flag at all. -/
structure SamplerBindingState where
  sampler : Option Nat
  shouldResetBindGroup : Bool
deriving DecidableEq, Repr

/-- The `SamplerBinding.resource` setter:
`if (value && this.sampler) this.shouldResetBindGroup = true;
this.sampler = value`. -/
def SamplerBinding.setResource (b : SamplerBindingState) (value : Option Nat) :
    SamplerBindingState :=
  { sampler := value
    shouldResetBindGroup :=
      if value.isSome && b.sampler.isSome then true else b.shouldResetBindGroup }

/-- C8: a repeated external-texture upload at an already-registered texture
index leaves the bind group state — in particular `needsPipelineFlush` —
completely unchanged and reports no layout update; the flush flag is set
exactly on the first upload at a not-yet-registered index; and updating a
sampler binding's resource with a value of the same kind only marks the
bind group for reset/rebind (`shouldResetBindGroup`), the operation having
no pipeline-flush effect at all. -/
theorem no_redundant_flush :
    (∀ (s : TextureBindGroupFlushState) (i : Nat),
      i ∈ s.externalTexturesIndex →
      (TextureBindGroup.shouldUpdateVideoTextureBindGroupLayout s i).1 = s ∧
      (TextureBindGroup.shouldUpdateVideoTextureBindGroupLayout s i).2 = false) ∧
    (∀ (s : TextureBindGroupFlushState) (i : Nat),
      i ∉ s.externalTexturesIndex →
      (TextureBindGroup.shouldUpdateVideoTextureBindGroupLayout s i).1.needsPipelineFlush
          = true ∧
      (TextureBindGroup.shouldUpdateVideoTextureBindGroupLayout s i).2 = true) ∧
    (∀ (b : SamplerBindingState) (v : Option Nat),
      v.isSome = true → b.sampler.isSome = true →
      (SamplerBinding.setResource b v).shouldResetBindGroup = true ∧
      (SamplerBinding.setResource b v).sampler = v) := by
  refine ⟨?_, ?_, ?_⟩
  · intro s i hmem
    constructor <;> simp [TextureBindGroup.shouldUpdateVideoTextureBindGroupLayout, hmem]
  · intro s i hmem
    constructor <;> simp [TextureBindGroup.shouldUpdateVideoTextureBindGroupLayout, hmem]
  · intro b v hv hb
    constructor <;> simp [SamplerBinding.setResource, hv, hb]

/-- C8, witness: the three statements instantiated at a concrete bind group
state (texture index `0` registered, index `1` not) and a concrete sampler
binding update. -/
theorem no_redundant_flush_witness :
    (TextureBindGroup.shouldUpdateVideoTextureBindGroupLayout
        { externalTexturesIndex := [0], needsPipelineFlush := false } 0).1 =
      { externalTexturesIndex := [0], needsPipelineFlush := false } ∧
    (TextureBindGroup.shouldUpdateVideoTextureBindGroupLayout
        { externalTexturesIndex := [0], needsPipelineFlush := false } 0).2 = false ∧
    (TextureBindGroup.shouldUpdateVideoTextureBindGroupLayout
        { externalTexturesIndex := [0], needsPipelineFlush := false } 1).1.needsPipelineFlush
        = true ∧
    (SamplerBinding.setResource
        { sampler := some 5, shouldResetBindGroup := false } (some 6)).shouldResetBindGroup
        = true :=
  ⟨(no_redundant_flush.1 _ 0 (by decide)).1,
   (no_redundant_flush.1 _ 0 (by decide)).2,
   (no_redundant_flush.2.1 _ 1 (by decide)).1,
   (no_redundant_flush.2.2 { sampler := some 5, shouldResetBindGroup := false } (some 6)
     rfl rfl).1⟩

/-! ## Not-ready skip policy (C9) -/

/-- The renderer state read by `GPURenderer.render` and the `ready`
getter: device manager readiness, context presence, a set canvas style
width, and whether a scene exists. -/
structure RendererState where
  deviceManagerReady : Bool
  hasContext : Bool
  hasCanvasStyleWidth : Bool
  hasScene : Bool
deriving DecidableEq, Repr

/-- `GPURenderer.ready`:
`this.deviceManager.ready && !!this.context && !!this.canvas.style.width`. -/
def GPURenderer.ready (r : RendererState) : Bool :=
  r.deviceManagerReady && r.hasContext && r.hasCanvasStyleWidth

/-- The observable steps of `GPURenderer.render`. -/
inductive FrameEvent where
  | onBeforeRenderCallback
  | beforeSceneTasks
  | sceneRender
  | onAfterRenderCallback
  | afterSceneTasks
deriving DecidableEq, Repr

/-- `GPURenderer.render(commandEncoder)`: `if (!this.ready) return`, then
the before callback and tasks, `this.scene?.render(commandEncoder)`, then
the after callback and tasks. -/
def GPURenderer.render (r : RendererState) : List FrameEvent :=
  if !(GPURenderer.ready r) then []
  else
    [FrameEvent.onBeforeRenderCallback, FrameEvent.beforeSceneTasks] ++
      (if r.hasScene then [FrameEvent.sceneRender] else []) ++
      [FrameEvent.onAfterRenderCallback, FrameEvent.afterSceneTasks]

/-- A material's pipeline entry as `Material.ready` reads it: whether the
compiled `pipeline` object exists (false while compiling or on error). -/
structure MaterialPipelineEntry where
  pipeline : Bool
deriving DecidableEq, Repr

/-- The material state read by `Material.render`. -/
structure MaterialState where
  rendererReady : Bool
  pipelineEntry : Option MaterialPipelineEntry
  bindGroupIndices : List Nat
deriving DecidableEq, Repr

/-- `Material.ready`: `!!(this.pipelineEntry && this.pipelineEntry.pipeline)`. -/
def Material.ready (m : MaterialState) : Bool :=
  match m.pipelineEntry with
  | some pe => pe.pipeline
  | none => false

/-- The pass commands `Material.render` issues. -/
inductive MaterialCommand where
  | setCurrentPipeline
  | setBindGroup (index : Nat)
deriving DecidableEq, Repr

/-- `Material.render(pass)`: return if the renderer is not ready, return if
the pipeline is not ready, otherwise set the current pipeline and the bind
groups. -/
def Material.render (m : MaterialState) : List MaterialCommand :=
  if !m.rendererReady then []
  else if !(Material.ready m) then []
  else MaterialCommand.setCurrentPipeline :: m.bindGroupIndices.map MaterialCommand.setBindGroup

/-- Every mesh in any mesh partition gets a `render` attempt (a draw event)
in every frame's trace — the scene stacks themselves are read, never
written, by `Scene.render`, so a skipped mesh stays stacked and is retried
next frame. -/
theorem draw_mem_scene_render (cam : Bool) (s : Stacks) (m : Mesh)
    (hm : m ∈ s.unprojectedOpaque ∨ m ∈ s.unprojectedTransparent ∨ m ∈ s.projectedOpaque ∨
      m ∈ s.projectedTransparent) :
    RenderEvent.draw m.uuid ∈ Scene.render cam s := by
  rw [scene_render_eq_sections]
  have hmain : RenderEvent.draw m.uuid ∈ mainPassSection cam s := by
    unfold mainPassSection
    rcases hm with hm | hm | hm | hm <;>
      simp only [List.mem_append, List.mem_map, List.mem_cons]
    · exact Or.inl (Or.inl (Or.inl (Or.inl (Or.inl (Or.inr ⟨m, hm, rfl⟩)))))
    · exact Or.inl (Or.inl (Or.inl (Or.inl (Or.inr ⟨m, hm, rfl⟩))))
    · exact Or.inl (Or.inl (Or.inr ⟨m, hm, rfl⟩))
    · exact Or.inl (Or.inr ⟨m, hm, rfl⟩)
  unfold claimedTraversal
  exact List.mem_append.mpr (Or.inl (List.mem_append.mpr (Or.inr hmain)))

/-- C9: when the renderer's device/context is not ready, `GPURenderer.render`
returns before issuing anything (no pass, no callback — the whole frame is
skipped); when a material's pipeline entry exists but its pipeline is not
yet compiled (compiling or error), `Material.render` issues no command for
that frame; and every stacked mesh still receives a draw attempt in every
frame's scene trace, so a skipped object is retried automatically. -/
theorem not_ready_frame_skipped :
    (∀ r : RendererState, GPURenderer.ready r = false → GPURenderer.render r = []) ∧
    (∀ (m : MaterialState) (pe : MaterialPipelineEntry),
      m.pipelineEntry = some pe → pe.pipeline = false → Material.render m = []) ∧
    (∀ (cam : Bool) (s : Stacks) (m : Mesh),
      m ∈ s.unprojectedOpaque ∨ m ∈ s.unprojectedTransparent ∨ m ∈ s.projectedOpaque ∨
        m ∈ s.projectedTransparent →
      RenderEvent.draw m.uuid ∈ Scene.render cam s) := by
  refine ⟨?_, ?_, draw_mem_scene_render⟩
  · intro r hr
    simp [GPURenderer.render, hr]
  · intro m pe hpe hp
    have hready : Material.ready m = false := by
      simp [Material.ready, hpe, hp]
    by_cases hrr : m.rendererReady = true <;>
      simp [Material.render, hrr, hready]

/-- C9, witness: a renderer without a context renders nothing, a material
with an uncompiled pipeline issues no command, and a stacked mesh's draw
attempt is present in the frame trace. -/
theorem not_ready_frame_skipped_witness :
    GPURenderer.render
        { deviceManagerReady := true, hasContext := false, hasCanvasStyleWidth := true,
          hasScene := true } = [] ∧
    Material.render
        { rendererReady := true, pipelineEntry := some { pipeline := false },
          bindGroupIndices := [0, 1] } = [] ∧
    RenderEvent.draw orderZeroMesh.uuid ∈
      Scene.render false (Scene.addMesh [orderZeroMesh] orderZeroMesh Scene.setStacks) :=
  ⟨not_ready_frame_skipped.1 _ rfl,
   not_ready_frame_skipped.2.1 _ { pipeline := false } rfl rfl,
   not_ready_frame_skipped.2.2 false (Scene.addMesh [orderZeroMesh] orderZeroMesh Scene.setStacks)
     orderZeroMesh (Or.inl (by decide))⟩

/-! ## Mesh creation index (C10)

`MeshBaseMixin` keeps a module-level counter `let meshIndex = 0` and each
construction runs
`Object.defineProperty(this, 'index', { value: meshIndex++ })`.
Per ECMAScript, descriptor fields absent from a `defineProperty` call
default to `false`, so the defined `index` property is non-writable (and
non-enumerable, non-configurable). -/

/-- The property descriptor resulting from
`Object.defineProperty(this, 'index', { value: counter })`. -/
structure IndexProperty where
  value : Nat
  writable : Bool
  enumerable : Bool
  configurable : Bool
deriving DecidableEq, Repr

/-- Defining the `index` property from the current counter value: only
`value` is specified, every other descriptor field defaults to `false`. -/
def defineMeshIndexProperty (counter : Nat) : IndexProperty :=
  { value := counter, writable := false, enumerable := false, configurable := false }

/-- Constructing `n` meshes in sequence starting from counter value `c`:
each construction defines the index property from the current counter and
post-increments it (`meshIndex++`). -/
def constructMeshIndices (c : Nat) : Nat → List IndexProperty
  | 0 => []
  | n + 1 => defineMeshIndexProperty c :: constructMeshIndices (c + 1) n

/-- The i-th constructed mesh's index property holds counter value `c + i`. -/
theorem constructMeshIndices_getElem (c n : Nat) :
    ∀ i : Nat, i < n →
      (constructMeshIndices c n)[i]? = some (defineMeshIndexProperty (c + i)) := by
  induction n generalizing c with
  | zero => intro i hi; exact absurd hi (by omega)
  | succ n ih =>
    intro i hi
    cases i with
    | zero => simp [constructMeshIndices]
    | succ i =>
      simp only [constructMeshIndices, List.getElem?_cons_succ]
      rw [ih (c + 1) i (by omega)]
      congr 2
      omega

/-- C10: across any sequence of mesh constructions, any two meshes created
at positions `i < j` receive index properties with strictly increasing —
hence pairwise distinct — values, and both properties are non-writable, so
a mesh's creation index never changes after construction. -/
theorem mesh_creation_index (c n i j : Nat) (hij : i < j) (hj : j < n) :
    ∃ pi pj : IndexProperty,
      (constructMeshIndices c n)[i]? = some pi ∧
      (constructMeshIndices c n)[j]? = some pj ∧
      pi.value < pj.value ∧ pi.writable = false ∧ pj.writable = false := by
  refine ⟨defineMeshIndexProperty (c + i), defineMeshIndexProperty (c + j),
    constructMeshIndices_getElem c n i (by omega),
    constructMeshIndices_getElem c n j hj, ?_, rfl, rfl⟩
  simp [defineMeshIndexProperty]
  omega

/-- C10, witness: the first and third meshes constructed from a fresh
counter receive distinct, increasing, non-writable indices. -/
theorem mesh_creation_index_witness :
    ∃ pi pj : IndexProperty,
      (constructMeshIndices 0 3)[0]? = some pi ∧
      (constructMeshIndices 0 3)[2]? = some pj ∧
      pi.value < pj.value ∧ pi.writable = false ∧ pj.writable = false :=
  mesh_creation_index 0 3 0 2 (by decide) (by decide)
